import Mathlib

/-!
Verification of the alist `crypt` overlay driver (`drivers/crypt/driver.go`).

The driver composes an external cipher (rclone's crypt backend), a remote
storage backend, and path-resolution helpers into the file-tree operations
`Init`, `List`, `Get`, `Link`, `Put`, etc.  We shallowly embed the driver's
control flow as pure Lean functions.  External collaborators (the cipher,
the remote backend, the path helpers defined outside `driver.go`) are
abstracted as function-valued parameters, so every theorem quantifies over
all of their behaviours.  Effectful remote calls are instrumented with an
explicit call trace where a claim needs to count or identify them.
-/

namespace CryptDriver

/-- Errors produced by the remote backend / framework (`error` values in Go).
`objectNotFound` models errors for which `errs.IsObjectNotFound` holds. -/
inductive GoErr where
  | objectNotFound (msg : String)
  | other (msg : String)
deriving DecidableEq, Repr

/-- Embeds `errs.IsObjectNotFound(err)`: true exactly on object-not-found errors. -/
def isObjectNotFound : GoErr → Bool
  | .objectNotFound _ => true
  | .other _ => false

/-- A remote object (`model.Obj`): name, size, modification time, directory
flag, path, id, and an optional thumbnail (for `model.GetThumb`). -/
structure Obj where
  id : String
  path : String
  name : String
  size : Int
  modified : Int
  isFolder : Bool
  thumb : Option String
deriving DecidableEq, Repr

/-- An upload stream (`model.FileStreamer` / `model.FileStream`): object
metadata plus the content byte stream.  `NeedStore()` reads the
`WebPutAsTask` field. -/
structure FileStream where
  id : String
  path : String
  name : String
  size : Int
  modified : Int
  isFolder : Bool
  content : List Nat
  mimetype : String
  webPutAsTask : Bool
  old : Option Obj
deriving DecidableEq, Repr

/-- The external rclone cipher (`rcCrypt.Cipher`), abstracted at its
interface boundary: name codec, size transform, and the chunked stream
cipher's encrypt/decrypt entry points.  The spec treats its internals as an
external collaborator; the driver only calls these methods. -/
structure Cipher where
  encryptFileName : String → String
  encryptDirName : String → String
  decryptFileName : String → Except String String
  decryptDirName : String → Except String String
  encryptedSize : Int → Int
  decryptedSize : Int → Except String Int
  encryptData : List Nat → Except String (List Nat)
  decryptDataSeek : (Int → Int → Except String (List Nat)) → Int → Int → Except String (List Nat)

/-- A reader over HTTP: status code and full response body, as consumed by
the URL branch of the range-read adapter. -/
structure HttpResponse where
  status : Nat
  body : List Nat
deriving DecidableEq, Repr

/-- A remote link (`model.Link`) as returned by `op.Link`: at most one of a
native range reader, a seekable reader (modelled as offset ↦ remaining
bytes), or a URL. -/
structure RemoteLink where
  rangeReader : Option (Int → Int → Except String (List Nat))
  readSeek : Option (Int → Except String (List Nat))
  url : String
  header : List (String × String)
  expiration : Option Int

/-- The remote storage backend behind the overlay (`fs.Get`, `fs.List`,
`op.Link`, `op.Put` as used by `driver.go`), abstracted as its
input/output behaviour for one fixed remote state. -/
structure Remote where
  get : String → Except GoErr Obj
  list : String → Except GoErr (List Obj)
  link : String → Except GoErr (RemoteLink × Obj)
  put : String → FileStream → Except GoErr Unit

/-- The `Crypt` driver.  `cipher` is the external cipher.  `guessPath`,
`getPathForRemote` and `getActualPathForRemote` live in the package's
`util.go`, which is outside the sources under study; they are
`Modelled from the spec:` §4.5's Path Resolver contract as abstract
functions — `guessPath path = (firstTryIsFolder, secondTryAllowed)` is the
trailing-segment-shape heuristic, and the two path mappers translate a
logical path to a remote path under a directory/file hint. -/
structure Crypt where
  cipher : Cipher
  guessPath : String → Bool × Bool
  getPathForRemote : String → Bool → String
  getActualPathForRemote : String → Bool → Except String String

/-- Modelled from the spec: `utils.PathEqual`, used only for the root check
`utils.PathEqual(path, "/")`; the spec phrases it as `Get("/")`, so we model
the comparison as string equality. -/
def pathEqual (a b : String) : Bool := a == b

/-- Boolean success test for `Except`. -/
def exceptIsOk {ε α : Type} : Except ε α → Bool
  | .ok _ => true
  | .error _ => false

/-- Boolean failure test for `Except`. -/
def exceptIsError {ε α : Type} : Except ε α → Bool
  | .ok _ => false
  | .error _ => true

/-- The credential marker constant, named `obfuscatedPrefix` in the source. -/
def obfuscatedMarker : String := "___Obfuscated___"

/-- Embeds `strings.HasPrefix s m`. -/
def hasPfx (s m : String) : Bool := s.data.take m.data.length == m.data

/-- Embeds `strings.CutPrefix` (the driver keeps only the trimmed string). -/
def cutPfx (s m : String) : String :=
  if hasPfx s m then String.mk (s.data.drop m.data.length) else s

/-- Embeds `Crypt.updateObfusParm` (driver.go:89-100): leave a string that
already carries the marker alone, otherwise obfuscate it (through the
external `obscure.Obscure`, abstracted as a parameter) and prepend the
marker. -/
def updateObfusParm (obscure : String → Except String String) (s : String) :
    Except String String :=
  if hasPfx s obfuscatedMarker then .ok s
  else
    match obscure s with
    | .error e => .error e
    | .ok t => .ok (obfuscatedMarker ++ t)

/-- Embeds the regex `^[.][A-Za-z0-9-_]{2,}$` from `Crypt.Init`
(driver.go:54): a dot followed by at least two characters, each a letter, a
digit, `-` or `_`. -/
def isCryptExt (s : String) : Bool :=
  match s.data with
  | [] => false
  | c :: rest =>
      c == '.' && decide (2 ≤ rest.length) &&
        rest.all fun ch => ch.isAlphanum || ch == '-' || ch == '_'

/-- The claim's pattern `^\.[A-Za-z0-9_-]{2,}$`, written from the spec's
words: a dot followed by 2+ alphanumeric/`_`/`-` characters. -/
def suffixPatternSpec (s : String) : Bool :=
  match s.data with
  | [] => false
  | c :: rest =>
      c == '.' && decide (2 ≤ rest.length) &&
        rest.all fun ch => ch.isAlphanum || ch == '_' || ch == '-'

/-- Configuration of the driver (`Addition` plus the persisted storage
fields used by `Init`). -/
structure Addition where
  password : String
  salt : String
  encryptedSuffix : String
  remotePath : String
  fileNameEnc : String
  dirNameEnc : String
deriving DecidableEq, Repr

/-- The `configmap.Simple` handed to `rcCrypt.NewCipher`. -/
structure CipherConfig where
  password : String
  password2 : String
  fileNameEnc : String
  dirNameEnc : String
  filenameEncoding : String
  suffix : String
deriving DecidableEq, Repr

/-- External collaborators of `Init`: `obscure.Obscure`, `fs.GetStorage`
(only resolvability matters to the driver) and `rcCrypt.NewCipher`. -/
structure InitEnv where
  obscure : String → Except String String
  getStorage : String → Except GoErr Unit
  newCipher : CipherConfig → Except String Cipher

/-- The distinct error sites of `Crypt.Init`, one constructor per
`fmt.Errorf` wrap in driver.go:43-87. -/
inductive InitErr where
  | obfusPassword (e : String)
  | obfusSalt (e : String)
  | badSuffix
  | noRemote (e : GoErr)
  | cipherFail (e : String)

/-- What a successful `Init` leaves on the driver: the (now obfuscated)
credentials and the constructed cipher. -/
structure InitOk where
  password : String
  salt : String
  cipher : Cipher

/-- Embeds `Crypt.Init` (driver.go:43-87): obfuscate password and salt,
validate the ciphertext suffix, resolve the remote storage, build the
cipher. -/
def Crypt.Init (env : InitEnv) (a : Addition) : Except InitErr InitOk :=
  match updateObfusParm env.obscure a.password with
  | .error e => .error (.obfusPassword e)
  | .ok pw =>
    match updateObfusParm env.obscure a.salt with
    | .error e => .error (.obfusSalt e)
    | .ok salt =>
      if !isCryptExt a.encryptedSuffix then .error .badSuffix
      else
        match env.getStorage a.remotePath with
        | .error e => .error (.noRemote e)
        | .ok _ =>
          let p := cutPfx pw obfuscatedMarker
          let p2 := cutPfx salt obfuscatedMarker
          match env.newCipher
              { password := p, password2 := p2, fileNameEnc := a.fileNameEnc,
                dirNameEnc := a.dirNameEnc, filenameEncoding := "base32",
                suffix := a.encryptedSuffix } with
          | .error e => .error (.cipherFail e)
          | .ok c => .ok { password := pw, salt := salt, cipher := c }

/-- True exactly on the two validation errors the spec calls the
initialization checks: malformed suffix, unresolvable remote. -/
def initErrFromChecks : Except InitErr InitOk → Bool
  | .error .badSuffix => true
  | .error (.noRemote _) => true
  | _ => false

/-- The per-entry decoding done by the loop body of `Crypt.List`
(driver.go:119-163): directories decode the name, files decode size then
name; a failed decode yields `none` (the Go `continue`).  The produced
object carries the decrypted name/size, the original modification time and
directory flag, and (for files) the thumbnail when present. -/
def decodeEntry (c : Cipher) (obj : Obj) : Option Obj :=
  if obj.isFolder then
    match c.decryptDirName obj.name with
    | .error _ => none
    | .ok name =>
        some { id := "", path := "", name := name, size := 0,
               modified := obj.modified, isFolder := obj.isFolder, thumb := none }
  else
    match c.decryptedSize obj.size with
    | .error _ => none
    | .ok size =>
      match c.decryptFileName obj.name with
      | .error _ => none
      | .ok name =>
          some { id := "", path := "", name := name, size := size,
                 modified := obj.modified, isFolder := obj.isFolder,
                 thumb := obj.thumb }

/-- The accumulation loop of `Crypt.List` over the remote entries. -/
def listLoop (c : Cipher) : List Obj → List Obj
  | [] => []
  | obj :: rest =>
    match decodeEntry c obj with
    | none => listLoop c rest
    | some r => r :: listLoop c rest

/-- Embeds `Crypt.List` (driver.go:106-166; named `ListOp` here because the
method name would shadow Lean's `List` inside the `Crypt` namespace): list
the remote directory (resolved with a directory hint), then decode each
entry, skipping the ones that fail. -/
def Crypt.ListOp (d : Crypt) (remote : Remote) (dir : Obj) :
    Except GoErr (List Obj) :=
  match remote.list (d.getPathForRemote dir.path true) with
  | .error e => .error e
  | .ok objs => .ok (listLoop d.cipher objs)

/-- The post-lookup decoding of `Crypt.Get` (driver.go:194-221): decode
size and name for a file, name for a directory, falling back to the raw
remote value when a decode fails; the result keeps the logical path and the
remote's modification time and directory flag. -/
def getPost (c : Cipher) (path : String) (remoteObj : Obj) : Obj :=
  if !remoteObj.isFolder then
    let size :=
      match c.decryptedSize remoteObj.size with
      | .ok s => s
      | .error _ => remoteObj.size
    let name :=
      match c.decryptFileName remoteObj.name with
      | .ok n => n
      | .error _ => remoteObj.name
    { id := "", path := path, name := name, size := size,
      modified := remoteObj.modified, isFolder := remoteObj.isFolder,
      thumb := none }
  else
    let name :=
      match c.decryptDirName remoteObj.name with
      | .ok n => n
      | .error _ => remoteObj.name
    { id := "", path := path, name := name, size := 0,
      modified := remoteObj.modified, isFolder := remoteObj.isFolder,
      thumb := none }

/-- Embeds `Crypt.Get` (driver.go:168-223).  The second component is the
trace of remote lookups (the remote paths passed to `fs.Get`), so that the
bounded-retry policy can be stated.  The root path short-circuits to a
constant directory object with no remote call; otherwise the path is
resolved under the first type guess, and on an object-not-found error with
a legitimate second guess the opposite type is tried exactly once. -/
def Crypt.Get (d : Crypt) (remote : Remote) (path : String) :
    Except GoErr Obj × List String :=
  if pathEqual path "/" then
    (.ok { id := "", path := "/", name := "Root", size := 0, modified := 0,
           isFolder := true, thumb := none }, [])
  else
    let g := d.guessPath path
    let firstTryIsFolder := g.1
    let secondTry := g.2
    let p1 := d.getPathForRemote path firstTryIsFolder
    match remote.get p1 with
    | .ok remoteObj => (.ok (getPost d.cipher path remoteObj), [p1])
    | .error err =>
      if isObjectNotFound err && secondTry then
        let p2 := d.getPathForRemote path (!firstTryIsFolder)
        match remote.get p2 with
        | .ok remoteObj => (.ok (getPost d.cipher path remoteObj), [p1, p2])
        | .error err2 => (.error err2, [p1, p2])
      else
        (.error err, [p1])

/-- Whether an `fs.Get` result is an object-not-found error. -/
def errIsNotFound : Except GoErr Obj → Bool
  | .error e => isObjectNotFound e
  | .ok _ => false

/-- The length adjustment at the top of `rangeReaderFunc`
(driver.go:241-244): a non-negative requested length reaching past the end
of the remote file is turned into `-1` ("to end"). -/
def adjustLength (remoteFileSize underlyingOffset underlyingLength : Int) : Int :=
  if 0 ≤ underlyingLength ∧ remoteFileSize ≤ underlyingOffset + underlyingLength then -1
  else underlyingLength

/-- Modelled from the spec: `net.GetRangedHttpReader` (outside the sources
under study) synthesizes a range over a full body by "reading and
discarding bytes up to `offset` and truncating at `length`", reading to the
end when `length` is `-1`, and is "never a failure". -/
def getRangedHttpReader (body : List Nat) (offset length : Int) : List Nat :=
  let dropped := body.drop offset.toNat
  if length < 0 then dropped else dropped.take length.toNat

/-- Embeds the closure `rangeReaderFunc` of `Crypt.Link`
(driver.go:240-297).  `http offset length` models `RequestRangedHttp`
(defined outside the sources under study) issuing a byte-range request for
`[offset, offset+length)` against the link's URL and returning the response
status and body.  Branch order follows the source: native range reader,
then seekable reader, then URL, else not-supported. -/
def rangeReaderFunc (remoteLink : RemoteLink) (remoteFileSize : Int)
    (http : Int → Int → Except String HttpResponse)
    (underlyingOffset underlyingLength : Int) : Except String (List Nat) :=
  let length := adjustLength remoteFileSize underlyingOffset underlyingLength
  match remoteLink.rangeReader with
  | some rr => rr underlyingOffset length
  | none =>
    match remoteLink.readSeek with
    | some rs => rs underlyingOffset
    | none =>
      if 0 < remoteLink.url.length then
        match http underlyingOffset length with
        | .error e => .error ("remote storage http request failure: " ++ e)
        | .ok response =>
          if (underlyingOffset == 0 && length == -1) || response.status == 206 then
            .ok response.body
          else if response.status == 200 then
            .ok (getRangedHttpReader response.body underlyingOffset length)
          else
            .ok response.body
      else
        .error "NotSupport"

/-- The distinct error sites of `Crypt.Link`. -/
inductive LinkErr where
  | pathConv (e : String)
  | remote (e : GoErr)
  | noCapability

/-- The link returned by `Crypt.Link`: the remote link's headers and
expiration, with the decrypting range reader wired over the range-read
adapter. -/
structure ResultLink where
  header : List (String × String)
  rangeReader : Int → Int → Except String (List Nat)
  expiration : Option Int

/-- Embeds `Crypt.Link` (driver.go:225-315): resolve the remote path, link
through the remote, fail when the remote link exposes none of the three
read capabilities, otherwise wire the cipher's `DecryptDataSeek` over the
range-read adapter. -/
def Crypt.Link (d : Crypt) (remote : Remote) (file : Obj)
    (http : Int → Int → Except String HttpResponse) : Except LinkErr ResultLink :=
  match d.getActualPathForRemote file.path false with
  | .error e => .error (.pathConv e)
  | .ok dstDirActualPath =>
    match remote.link dstDirActualPath with
    | .error e => .error (.remote e)
    | .ok (remoteLink, remoteFile) =>
      if remoteLink.rangeReader.isNone && remoteLink.readSeek.isNone &&
          remoteLink.url.length == 0 then
        .error .noCapability
      else
        let remoteFileSize := remoteFile.size
        .ok { header := remoteLink.header,
              rangeReader := fun start len =>
                d.cipher.decryptDataSeek
                  (rangeReaderFunc remoteLink remoteFileSize http) start len,
              expiration := remoteLink.expiration }

/-- The distinct error sites of `Crypt.Put`. -/
inductive PutErr where
  | pathConv (e : String)
  | encryptData (e : String)
  | remote (e : GoErr)

/-- Embeds `Crypt.Put` (driver.go:373-405).  The second component records
the remote `op.Put` call that was issued (destination path and the stream
handed over), `none` when the function failed before reaching the remote. -/
def Crypt.Put (d : Crypt) (remote : Remote) (dstDir : Obj)
    (stream : FileStream) : Except PutErr Unit × Option (String × FileStream) :=
  match d.getActualPathForRemote dstDir.path true with
  | .error e => (.error (.pathConv e), none)
  | .ok dstDirActualPath =>
    match d.cipher.encryptData stream.content with
    | .error e => (.error (.encryptData e), none)
    | .ok wrappedIn =>
      let streamOut : FileStream :=
        { id := stream.id, path := stream.path,
          name := d.cipher.encryptFileName stream.name,
          size := d.cipher.encryptedSize stream.size,
          modified := stream.modified, isFolder := stream.isFolder,
          content := wrappedIn,
          mimetype := "application/octet-stream",
          webPutAsTask := stream.webPutAsTask,
          old := stream.old }
      match remote.put dstDirActualPath streamOut with
      | .error e => (.error (.remote e), some (dstDirActualPath, streamOut))
      | .ok _ => (.ok (), some (dstDirActualPath, streamOut))

/-! ### Concrete instances used by the witnesses -/

/-- A concrete cipher whose decoders always succeed. -/
def cipherId : Cipher :=
  { encryptFileName := fun s => s ++ ".enc"
  , encryptDirName := fun s => s
  , decryptFileName := fun s => .ok s
  , decryptDirName := fun s => .ok s
  , encryptedSize := fun n => n + 40
  , decryptedSize := fun n => .ok (n - 40)
  , encryptData := fun bs => .ok bs
  , decryptDataSeek := fun f o l => f o l }

/-- A concrete cipher whose file-name and size decoders always fail. -/
def cipherBad : Cipher :=
  { encryptFileName := fun s => s ++ ".enc"
  , encryptDirName := fun s => s
  , decryptFileName := fun _ => .error "bad name"
  , decryptDirName := fun _ => .error "bad name"
  , encryptedSize := fun n => n + 40
  , decryptedSize := fun _ => .error "bad size"
  , encryptData := fun bs => .ok bs
  , decryptDataSeek := fun f o l => f o l }

/-- A concrete driver over `cipherId`. -/
def cryptEx : Crypt :=
  { cipher := cipherId
  , guessPath := fun _ => (false, true)
  , getPathForRemote := fun p isF => (if isF then "/d" else "/f") ++ p
  , getActualPathForRemote := fun p _ => .ok ("/r" ++ p) }

/-- A concrete driver over `cipherBad`. -/
def cryptBad : Crypt :=
  { cipher := cipherBad
  , guessPath := fun _ => (false, true)
  , getPathForRemote := fun p isF => (if isF then "/d" else "/f") ++ p
  , getActualPathForRemote := fun p _ => .ok ("/r" ++ p) }

/-- A concrete file object on the remote. -/
def objFileEx : Obj :=
  { id := "", path := "/f/a", name := "n.bin", size := 100, modified := 7,
    isFolder := false, thumb := none }

/-- A concrete directory object on the remote. -/
def objDirEx : Obj :=
  { id := "", path := "/d/a", name := "dn", size := 0, modified := 3,
    isFolder := true, thumb := none }

/-- A remote whose lookups all fail with object-not-found. -/
def remoteBoth404 : Remote :=
  { get := fun _ => .error (.objectNotFound "nf")
  , list := fun _ => .ok []
  , link := fun _ => .error (.other "x")
  , put := fun _ _ => .ok () }

/-- A remote whose lookups and listings succeed with a fixed file object. -/
def remoteOkFile : Remote :=
  { get := fun _ => .ok objFileEx
  , list := fun _ => .ok [objDirEx, objFileEx]
  , link := fun _ => .error (.other "x")
  , put := fun _ _ => .ok () }

/-- A remote link exposing only a URL. -/
def linkUrlOnly : RemoteLink :=
  { rangeReader := none, readSeek := none, url := "http://u", header := [],
    expiration := none }

/-- A remote whose link operation returns the URL-only link. -/
def remoteLinkUrl : Remote :=
  { get := fun _ => .ok objFileEx
  , list := fun _ => .ok []
  , link := fun _ => .ok (linkUrlOnly, objFileEx)
  , put := fun _ _ => .ok () }

/-- An HTTP endpoint that always answers 500 with a fixed body. -/
def httpStatus500 : Int → Int → Except String HttpResponse :=
  fun _ _ => .ok { status := 500, body := [7, 8, 9] }

/-- An HTTP endpoint that always answers a full 200 with a fixed body. -/
def http200 : Int → Int → Except String HttpResponse :=
  fun _ _ => .ok { status := 200, body := [0, 1, 2, 3, 4] }

/-- A concrete upload stream. -/
def streamEx : FileStream :=
  { id := "id1", path := "/p/a", name := "a.txt", size := 10, modified := 5,
    isFolder := false, content := [1, 2, 3], mimetype := "text/plain",
    webPutAsTask := true, old := some objFileEx }

/-- A concrete driver configuration with a well-formed suffix. -/
def additionEx : Addition :=
  { password := "pw", salt := "___Obfuscated___s", encryptedSuffix := ".enc",
    remotePath := "/mnt", fileNameEnc := "standard", dirNameEnc := "false" }

/-- A concrete `Init` environment whose remote reference does not resolve. -/
def envNoRemote : InitEnv :=
  { obscure := fun s => .ok ("OB" ++ s)
  , getStorage := fun _ => .error (.other "no storage")
  , newCipher := fun _ => .ok cipherId }

/-! ### Theorems -/

/-- Claim C6: `Get` applied to the root path `"/"` always returns,
successfully and for every driver and every remote state, a directory
object named "Root" with path "/", issuing no remote lookup (the call
trace is empty). -/
theorem get_root_no_remote_call (d : Crypt) (remote : Remote) :
    Crypt.Get d remote "/" =
      (.ok { id := "", path := "/", name := "Root", size := 0, modified := 0,
             isFolder := true, thumb := none }, []) := by
  simp [Crypt.Get, pathEqual]

/-- Claim C1: for every non-root logical path, `Get` performs at most two
remote lookups; it queries the path resolved under the first guess, retries
with the opposite type exactly when the first lookup fails with
object-not-found and a second guess is legitimate, returns the second
attempt's error when both attempts fail, and returns the first error when
it is not object-not-found or no second guess is legitimate. -/
theorem get_retry_policy (d : Crypt) (remote : Remote) (path : String)
    (b st : Bool) (e e2 : GoErr)
    (hroot : pathEqual path "/" = false)
    (hg : d.guessPath path = (b, st)) :
    (Crypt.Get d remote path).2.length ≤ 2 ∧
    ((Crypt.Get d remote path).2 =
        [d.getPathForRemote path b, d.getPathForRemote path (!b)] ↔
      (errIsNotFound (remote.get (d.getPathForRemote path b)) = true ∧
        st = true)) ∧
    ((Crypt.Get d remote path).2 = [d.getPathForRemote path b] ↔
      ¬(errIsNotFound (remote.get (d.getPathForRemote path b)) = true ∧
        st = true)) ∧
    (remote.get (d.getPathForRemote path b) = .error e →
      (isObjectNotFound e = false ∨ st = false) →
      (Crypt.Get d remote path).1 = .error e) ∧
    (remote.get (d.getPathForRemote path b) = .error e →
      isObjectNotFound e = true → st = true →
      remote.get (d.getPathForRemote path (!b)) = .error e2 →
      (Crypt.Get d remote path).1 = .error e2) := by
  have hget : Crypt.Get d remote path =
      (match remote.get (d.getPathForRemote path b) with
       | .ok remoteObj =>
           (.ok (getPost d.cipher path remoteObj), [d.getPathForRemote path b])
       | .error err =>
         if isObjectNotFound err && st then
           match remote.get (d.getPathForRemote path (!b)) with
           | .ok remoteObj =>
               (.ok (getPost d.cipher path remoteObj),
                 [d.getPathForRemote path b, d.getPathForRemote path (!b)])
           | .error err2 =>
               (.error err2,
                 [d.getPathForRemote path b, d.getPathForRemote path (!b)])
         else
           (.error err, [d.getPathForRemote path b])) := by
    simp only [Crypt.Get, hroot, Bool.false_eq_true, if_false, hg]
  rcases h1 : remote.get (d.getPathForRemote path b) with e1 | obj1
  · by_cases hnf : isObjectNotFound e1 = true ∧ st = true
    · rcases hnf with ⟨ha, hb⟩
      have himp4 : (Except.error e1 : Except GoErr Obj) = Except.error e →
          (isObjectNotFound e = false ∨ st = false) →
          (Crypt.Get d remote path).1 = .error e := by
        intro he hor
        injection he with he'
        subst he'
        rcases hor with h' | h'
        · exact absurd ha (by simp [h'])
        · exact absurd hb (by simp [h'])
      rcases h2 : remote.get (d.getPathForRemote path (!b)) with e2' | obj2 <;>
        refine ⟨?_, ?_, ?_, himp4, ?_⟩ <;> simp_all [hget, errIsNotFound]
    · have hcond : (isObjectNotFound e1 && st) = false := by
        rcases Bool.eq_false_or_eq_true (isObjectNotFound e1) with h | h <;>
          rcases Bool.eq_false_or_eq_true st with h' | h' <;>
            simp_all
      refine ⟨?_, ?_, ?_, ?_, ?_⟩ <;>
        simp_all [hget, errIsNotFound]
  · refine ⟨?_, ?_, ?_, ?_, ?_⟩ <;>
      simp_all [hget, errIsNotFound]

/-- Witness for C1: with a concrete driver and a remote failing both
lookups with object-not-found, the retry policy instantiates at path
`"/a"`. -/
theorem get_retry_policy_witness :
    (Crypt.Get cryptEx remoteBoth404 "/a").2.length ≤ 2 ∧
    ((Crypt.Get cryptEx remoteBoth404 "/a").2 =
        [cryptEx.getPathForRemote "/a" false, cryptEx.getPathForRemote "/a" (!false)] ↔
      (errIsNotFound (remoteBoth404.get (cryptEx.getPathForRemote "/a" false)) = true ∧
        true = true)) ∧
    ((Crypt.Get cryptEx remoteBoth404 "/a").2 = [cryptEx.getPathForRemote "/a" false] ↔
      ¬(errIsNotFound (remoteBoth404.get (cryptEx.getPathForRemote "/a" false)) = true ∧
        true = true)) ∧
    (remoteBoth404.get (cryptEx.getPathForRemote "/a" false) =
        .error (.objectNotFound "nf") →
      (isObjectNotFound (.objectNotFound "nf") = false ∨ true = false) →
      (Crypt.Get cryptEx remoteBoth404 "/a").1 = .error (.objectNotFound "nf")) ∧
    (remoteBoth404.get (cryptEx.getPathForRemote "/a" false) =
        .error (.objectNotFound "nf") →
      isObjectNotFound (.objectNotFound "nf") = true → true = true →
      remoteBoth404.get (cryptEx.getPathForRemote "/a" (!false)) =
        .error (.objectNotFound "nf") →
      (Crypt.Get cryptEx remoteBoth404 "/a").1 = .error (.objectNotFound "nf")) :=
  get_retry_policy cryptEx remoteBoth404 "/a" false true
    (.objectNotFound "nf") (.objectNotFound "nf") rfl rfl

/-- Claim C9: `Get` never fails because of a decode error — once a remote
object is fetched (by either attempt), the result is a success built by
`getPost`, and `getPost` falls back to the remote's raw size when size
decryption fails and to the remote's raw name when file- or directory-name
decryption fails. -/
theorem get_decode_degrades (d : Crypt) (remote : Remote) (path : String)
    (b st : Bool) (obj : Obj)
    (hroot : pathEqual path "/" = false)
    (hg : d.guessPath path = (b, st))
    (hfetch : remote.get (d.getPathForRemote path b) = .ok obj ∨
      (errIsNotFound (remote.get (d.getPathForRemote path b)) = true ∧
        st = true ∧ remote.get (d.getPathForRemote path (!b)) = .ok obj)) :
    (Crypt.Get d remote path).1 = .ok (getPost d.cipher path obj) ∧
    (obj.isFolder = false →
      exceptIsError (d.cipher.decryptedSize obj.size) = true →
      (getPost d.cipher path obj).size = obj.size) ∧
    (obj.isFolder = false →
      exceptIsError (d.cipher.decryptFileName obj.name) = true →
      (getPost d.cipher path obj).name = obj.name) ∧
    (obj.isFolder = true →
      exceptIsError (d.cipher.decryptDirName obj.name) = true →
      (getPost d.cipher path obj).name = obj.name) := by
  have hget : (Crypt.Get d remote path).1 = .ok (getPost d.cipher path obj) := by
    rcases hfetch with h | ⟨hnf, hst, h2⟩
    · simp only [Crypt.Get, hroot, Bool.false_eq_true, if_false, hg, h]
    · rcases h1 : remote.get (d.getPathForRemote path b) with e1 | obj1
      · rw [h1] at hnf
        simp only [errIsNotFound] at hnf
        simp only [Crypt.Get, hroot, Bool.false_eq_true, if_false, hg, h1,
          hnf, hst, Bool.and_self, if_true, h2]
      · rw [h1] at hnf
        simp only [errIsNotFound] at hnf
        exact absurd hnf (by simp)
  refine ⟨hget, ?_, ?_, ?_⟩
  · intro hf hs
    rcases hdec : d.cipher.decryptedSize obj.size with s | s
    · simp [getPost, hf, hdec]
    · rw [hdec] at hs
      simp [exceptIsError] at hs
  · intro hf hn
    rcases hdec : d.cipher.decryptFileName obj.name with n | n
    · simp [getPost, hf, hdec]
    · rw [hdec] at hn
      simp [exceptIsError] at hn
  · intro hf hn
    rcases hdec : d.cipher.decryptDirName obj.name with n | n
    · simp [getPost, hf, hdec]
    · rw [hdec] at hn
      simp [exceptIsError] at hn

/-- Witness for C9: a driver whose decoders all fail still serves `Get`
successfully, degrading to the raw remote name and size. -/
theorem get_decode_degrades_witness :
    (Crypt.Get cryptBad remoteOkFile "/a").1 =
      .ok (getPost cryptBad.cipher "/a" objFileEx) ∧
    (objFileEx.isFolder = false →
      exceptIsError (cryptBad.cipher.decryptedSize objFileEx.size) = true →
      (getPost cryptBad.cipher "/a" objFileEx).size = objFileEx.size) ∧
    (objFileEx.isFolder = false →
      exceptIsError (cryptBad.cipher.decryptFileName objFileEx.name) = true →
      (getPost cryptBad.cipher "/a" objFileEx).name = objFileEx.name) ∧
    (objFileEx.isFolder = true →
      exceptIsError (cryptBad.cipher.decryptDirName objFileEx.name) = true →
      (getPost cryptBad.cipher "/a" objFileEx).name = objFileEx.name) :=
  get_decode_degrades cryptBad remoteOkFile "/a" false true objFileEx
    rfl rfl (Or.inl rfl)

/-- The `Crypt.List` loop accumulates exactly the entries its per-entry
decoding keeps. -/
theorem listLoop_eq_filterMap (c : Cipher) (objs : List Obj) :
    listLoop c objs = objs.filterMap (decodeEntry c) := by
  induction objs with
  | nil => rfl
  | cons o rest ih =>
    rcases h : decodeEntry c o with _ | r <;>
      simp [listLoop, h, ih]

/-- Claim C2: when the remote listing succeeds, `List` succeeds and returns
exactly the entries whose name (and, for files, size) decryption succeeds,
each carrying the decrypted name and size; entries failing a decode are
omitted and never abort the listing. -/
theorem list_filters_bad_entries (d : Crypt) (remote : Remote) (dir : Obj)
    (objs : List Obj) (obj : Obj) (nm : String) (sz : Int)
    (hl : remote.list (d.getPathForRemote dir.path true) = .ok objs) :
    Crypt.ListOp d remote dir = .ok (objs.filterMap (decodeEntry d.cipher)) ∧
    ((decodeEntry d.cipher obj).isSome =
      (if obj.isFolder
       then !(exceptIsError (d.cipher.decryptDirName obj.name))
       else !(exceptIsError (d.cipher.decryptedSize obj.size)) &&
            !(exceptIsError (d.cipher.decryptFileName obj.name)))) ∧
    (obj.isFolder = true → d.cipher.decryptDirName obj.name = .ok nm →
      decodeEntry d.cipher obj =
        some { id := "", path := "", name := nm, size := 0,
               modified := obj.modified, isFolder := obj.isFolder,
               thumb := none }) ∧
    (obj.isFolder = false → d.cipher.decryptedSize obj.size = .ok sz →
      d.cipher.decryptFileName obj.name = .ok nm →
      decodeEntry d.cipher obj =
        some { id := "", path := "", name := nm, size := sz,
               modified := obj.modified, isFolder := obj.isFolder,
               thumb := obj.thumb }) := by
  refine ⟨?_, ?_, ?_, ?_⟩
  · simp only [Crypt.ListOp, hl, listLoop_eq_filterMap]
  · rcases hf : obj.isFolder with _ | _
    · rcases hsz : d.cipher.decryptedSize obj.size with s | s <;>
        rcases hnm : d.cipher.decryptFileName obj.name with n | n <;>
          simp [decodeEntry, hf, hsz, hnm, exceptIsError]
    · rcases hnm : d.cipher.decryptDirName obj.name with n | n <;>
        simp [decodeEntry, hf, hnm, exceptIsError]
  · intro hf hnm
    simp [decodeEntry, hf, hnm]
  · intro hf hsz hnm
    simp [decodeEntry, hf, hsz, hnm]

/-- Witness for C2: a concrete listing containing a directory and a file,
decoded by the identity-like cipher. -/
theorem list_filters_bad_entries_witness :
    Crypt.ListOp cryptEx remoteOkFile objDirEx =
      .ok ([objDirEx, objFileEx].filterMap (decodeEntry cryptEx.cipher)) ∧
    ((decodeEntry cryptEx.cipher objDirEx).isSome =
      (if objDirEx.isFolder
       then !(exceptIsError (cryptEx.cipher.decryptDirName objDirEx.name))
       else !(exceptIsError (cryptEx.cipher.decryptedSize objDirEx.size)) &&
            !(exceptIsError (cryptEx.cipher.decryptFileName objDirEx.name)))) ∧
    (objDirEx.isFolder = true → cryptEx.cipher.decryptDirName objDirEx.name = .ok "dn" →
      decodeEntry cryptEx.cipher objDirEx =
        some { id := "", path := "", name := "dn", size := 0,
               modified := objDirEx.modified, isFolder := objDirEx.isFolder,
               thumb := none }) ∧
    (objDirEx.isFolder = false → cryptEx.cipher.decryptedSize objDirEx.size = .ok 60 →
      cryptEx.cipher.decryptFileName objDirEx.name = .ok "dn" →
      decodeEntry cryptEx.cipher objDirEx =
        some { id := "", path := "", name := "dn", size := 60,
               modified := objDirEx.modified, isFolder := objDirEx.isFolder,
               thumb := objDirEx.thumb }) :=
  list_filters_bad_entries cryptEx remoteOkFile objDirEx [objDirEx, objFileEx]
    objDirEx "dn" 60 rfl

/-- Appending a string to the marker yields a string carrying the marker. -/
theorem hasPfx_append (t : String) :
    hasPfx (obfuscatedMarker ++ t) obfuscatedMarker = true := by
  simp [hasPfx, String.data_append, List.take_left]

/-- Claim C10: the credential obfuscation applied by `Init` is idempotent —
a string already carrying the `___Obfuscated___` marker is left unchanged,
a string without it is obfuscated and ends up carrying the marker, and
re-applying `updateObfusParm` to any of its outputs changes nothing. -/
theorem updateObfusParm_idempotent (obscure : String → Except String String)
    (s t u : String) :
    (hasPfx s obfuscatedMarker = true → updateObfusParm obscure s = .ok s) ∧
    (hasPfx s obfuscatedMarker = false → obscure s = .ok t →
      updateObfusParm obscure s = .ok (obfuscatedMarker ++ t) ∧
      hasPfx (obfuscatedMarker ++ t) obfuscatedMarker = true) ∧
    (updateObfusParm obscure s = .ok u → updateObfusParm obscure u = .ok u) := by
  refine ⟨?_, ?_, ?_⟩
  · intro h
    simp [updateObfusParm, h]
  · intro h hob
    refine ⟨by simp [updateObfusParm, h, hob], hasPfx_append t⟩
  · intro h
    rcases hp : hasPfx s obfuscatedMarker with _ | _
    · rcases hob : obscure s with e | t'
      · simp [updateObfusParm, hp, hob] at h
      · simp only [updateObfusParm, hp, Bool.false_eq_true, if_false, hob] at h
        injection h with h'
        subst h'
        simp [updateObfusParm, hasPfx_append]
    · simp only [updateObfusParm, hp, if_true] at h
      injection h with h'
      subst h'
      simp [updateObfusParm, hp]

/-- Witness for C10: a fresh password is obfuscated once and a second pass
leaves it unchanged. -/
theorem updateObfusParm_idempotent_witness :
    (hasPfx "pw" obfuscatedMarker = true →
      updateObfusParm envNoRemote.obscure "pw" = .ok "pw") ∧
    (hasPfx "pw" obfuscatedMarker = false →
      envNoRemote.obscure "pw" = .ok "OBpw" →
      updateObfusParm envNoRemote.obscure "pw" = .ok (obfuscatedMarker ++ "OBpw") ∧
      hasPfx (obfuscatedMarker ++ "OBpw") obfuscatedMarker = true) ∧
    (updateObfusParm envNoRemote.obscure "pw" = .ok "___Obfuscated___OBpw" →
      updateObfusParm envNoRemote.obscure "___Obfuscated___OBpw" =
        .ok "___Obfuscated___OBpw") :=
  updateObfusParm_idempotent envNoRemote.obscure "pw" "OBpw" "___Obfuscated___OBpw"

/-- Claim C7: after the credential-obfuscation step succeeds, `Init` errors
whenever the configured suffix fails the `^\.[A-Za-z0-9_-]{2,}$` pattern
(the source regex agrees with the claim's pattern on the configured
suffix) or the remote storage reference cannot be resolved; when the
suffix matches and the remote resolves, neither of these two checks
produces the error. -/
theorem init_validates (a : Addition) (env : InitEnv) (pw salt : String)
    (e : GoErr)
    (hpw : updateObfusParm env.obscure a.password = .ok pw)
    (hsalt : updateObfusParm env.obscure a.salt = .ok salt) :
    isCryptExt a.encryptedSuffix = suffixPatternSpec a.encryptedSuffix ∧
    (isCryptExt a.encryptedSuffix = false →
      Crypt.Init env a = .error .badSuffix) ∧
    (isCryptExt a.encryptedSuffix = true →
      env.getStorage a.remotePath = .error e →
      Crypt.Init env a = .error (.noRemote e)) ∧
    (isCryptExt a.encryptedSuffix = true →
      exceptIsError (env.getStorage a.remotePath) = false →
      initErrFromChecks (Crypt.Init env a) = false) := by
  refine ⟨?_, ?_, ?_, ?_⟩
  · have hfun : (fun ch : Char => ch.isAlphanum || ch == '-' || ch == '_') =
        (fun ch : Char => ch.isAlphanum || ch == '_' || ch == '-') := by
      funext ch
      rcases Bool.eq_false_or_eq_true ch.isAlphanum with h | h <;>
        rcases Bool.eq_false_or_eq_true (ch == '-') with h' | h' <;>
          rcases Bool.eq_false_or_eq_true (ch == '_') with h'' | h'' <;>
            simp [h, h', h'']
    rcases hd : a.encryptedSuffix.data with _ | ⟨c, rest⟩ <;>
      simp only [isCryptExt, suffixPatternSpec, hd, hfun]
  · intro hbad
    simp [Crypt.Init, hpw, hsalt, hbad]
  · intro hok hre
    simp [Crypt.Init, hpw, hsalt, hok, hre]
  · intro hok hre
    rcases hst : env.getStorage a.remotePath with e' | u
    · rw [hst] at hre
      simp [exceptIsError] at hre
    · rcases hc : env.newCipher
          { password := cutPfx pw obfuscatedMarker,
            password2 := cutPfx salt obfuscatedMarker,
            fileNameEnc := a.fileNameEnc, dirNameEnc := a.dirNameEnc,
            filenameEncoding := "base32", suffix := a.encryptedSuffix }
        with ce | c <;>
        simp [Crypt.Init, hpw, hsalt, hok, hst, hc, initErrFromChecks]

/-- Witness for C7: a well-formed suffix with an unresolvable remote makes
`Init` fail at the remote-resolution check. -/
theorem init_validates_witness :
    isCryptExt additionEx.encryptedSuffix =
      suffixPatternSpec additionEx.encryptedSuffix ∧
    (isCryptExt additionEx.encryptedSuffix = false →
      Crypt.Init envNoRemote additionEx = .error .badSuffix) ∧
    (isCryptExt additionEx.encryptedSuffix = true →
      envNoRemote.getStorage additionEx.remotePath = .error (.other "no storage") →
      Crypt.Init envNoRemote additionEx = .error (.noRemote (.other "no storage"))) ∧
    (isCryptExt additionEx.encryptedSuffix = true →
      exceptIsError (envNoRemote.getStorage additionEx.remotePath) = false →
      initErrFromChecks (Crypt.Init envNoRemote additionEx) = false) :=
  init_validates additionEx envNoRemote "___Obfuscated___OBpw"
    "___Obfuscated___s" (.other "no storage") rfl rfl

/-- Claim C5: `Put` hands the remote an object whose name is the file-name
encryption of the stream's name, whose size is `EncryptedSize` of the
stream's size, whose content is the cipher's encrypt-path output, and whose
id, path, modification time and directory flag are passed through
unchanged; the handoff is recorded before the remote `Put` resolves. -/
theorem put_encrypts_metadata (d : Crypt) (remote : Remote) (dstDir : Obj)
    (stream : FileStream) (p : String) (w : List Nat)
    (hpath : d.getActualPathForRemote dstDir.path true = .ok p)
    (henc : d.cipher.encryptData stream.content = .ok w) :
    (Crypt.Put d remote dstDir stream).2 =
      some (p,
        { id := stream.id, path := stream.path,
          name := d.cipher.encryptFileName stream.name,
          size := d.cipher.encryptedSize stream.size,
          modified := stream.modified, isFolder := stream.isFolder,
          content := w, mimetype := "application/octet-stream",
          webPutAsTask := stream.webPutAsTask, old := stream.old }) := by
  rcases hput : remote.put p
      { id := stream.id, path := stream.path,
        name := d.cipher.encryptFileName stream.name,
        size := d.cipher.encryptedSize stream.size,
        modified := stream.modified, isFolder := stream.isFolder,
        content := w, mimetype := "application/octet-stream",
        webPutAsTask := stream.webPutAsTask, old := stream.old } with e | u <;>
    simp [Crypt.Put, hpath, henc, hput]

/-- Witness for C5: a concrete upload through the identity-like cipher. -/
theorem put_encrypts_metadata_witness :
    (Crypt.Put cryptEx remoteOkFile objDirEx streamEx).2 =
      some ("/r" ++ objDirEx.path,
        { id := streamEx.id, path := streamEx.path,
          name := cryptEx.cipher.encryptFileName streamEx.name,
          size := cryptEx.cipher.encryptedSize streamEx.size,
          modified := streamEx.modified, isFolder := streamEx.isFolder,
          content := [1, 2, 3], mimetype := "application/octet-stream",
          webPutAsTask := streamEx.webPutAsTask, old := streamEx.old }) :=
  put_encrypts_metadata cryptEx remoteOkFile objDirEx streamEx
    ("/r" ++ objDirEx.path) [1, 2, 3] rfl rfl

/-- Claim C8: when the remote link exposes none of the three read
capabilities — no range reader, no seekable reader, empty URL — `Link`
fails with the capability error and returns no link; when at least one
capability is present, `Link` passes the check and returns a link. -/
theorem link_capability_check (d : Crypt) (remote : Remote) (file : Obj)
    (http : Int → Int → Except String HttpResponse)
    (p : String) (rl : RemoteLink) (rf : Obj)
    (hpath : d.getActualPathForRemote file.path false = .ok p)
    (hlink : remote.link p = .ok (rl, rf)) :
    (rl.rangeReader = none → rl.readSeek = none → rl.url.length = 0 →
      Crypt.Link d remote file http = .error .noCapability) ∧
    ((rl.rangeReader.isSome = true ∨ rl.readSeek.isSome = true ∨
        rl.url.length ≠ 0) →
      exceptIsOk (Crypt.Link d remote file http) = true) := by
  constructor
  · intro hrr hrs hurl
    simp [Crypt.Link, hpath, hlink, hrr, hrs, hurl]
  · intro hcap
    have hcond : (rl.rangeReader.isNone && rl.readSeek.isNone &&
        (rl.url.length == 0)) = false := by
      rcases hcap with h | h | h
      · have hn : rl.rangeReader.isNone = false := by
          rcases ho : rl.rangeReader with _ | v
          · rw [ho] at h
            simp at h
          · simp
        simp [hn]
      · have hn : rl.readSeek.isNone = false := by
          rcases ho : rl.readSeek with _ | v
          · rw [ho] at h
            simp at h
          · simp
        simp [hn]
      · have hn : (rl.url.length == 0) = false := beq_eq_false_iff_ne.mpr h
        simp [hn]
    simp [Crypt.Link, hpath, hlink, hcond, exceptIsOk]

/-- Witness for C8: a link exposing only a URL passes the capability
check. -/
theorem link_capability_check_witness :
    (linkUrlOnly.rangeReader = none → linkUrlOnly.readSeek = none →
      linkUrlOnly.url.length = 0 →
      Crypt.Link cryptEx remoteLinkUrl objFileEx http200 = .error .noCapability) ∧
    ((linkUrlOnly.rangeReader.isSome = true ∨ linkUrlOnly.readSeek.isSome = true ∨
        linkUrlOnly.url.length ≠ 0) →
      exceptIsOk (Crypt.Link cryptEx remoteLinkUrl objFileEx http200) = true) :=
  link_capability_check cryptEx remoteLinkUrl objFileEx http200
    ("/r" ++ objFileEx.path) linkUrlOnly objFileEx rfl rfl

/-- Claim C3: in the URL branch, when the response to a finite-length range
request comes back `200 OK` with the full file as body, the adapter
succeeds and yields exactly the bytes `[o, o+l)` of the response body —
discarding the first `o` bytes and truncating at `l`. -/
theorem url_branch_200_synthesizes_range (rl : RemoteLink) (S o l : Int)
    (http : Int → Int → Except String HttpResponse) (body : List Nat)
    (hrr : rl.rangeReader = none) (hrs : rl.readSeek = none)
    (hurl : 0 < rl.url.length)
    (hhttp : http o (adjustLength S o l) = .ok { status := 200, body := body })
    (ho : 0 ≤ o) (hl : 0 ≤ l) (hS : S = (body.length : Int)) :
    rangeReaderFunc rl S http o l =
      .ok ((body.drop o.toNat).take l.toNat) := by
  by_cases hc : S ≤ o + l
  · have hadj : adjustLength S o l = -1 := by
      simp [adjustLength, hl, hc]
    rw [hadj] at hhttp
    by_cases ho0 : o = 0
    · subst ho0
      have hbody : rangeReaderFunc rl S http 0 l = .ok body := by
        simp [rangeReaderFunc, hrr, hrs, hurl, hadj, hhttp]
      rw [hbody]
      have hlen : body.length ≤ l.toNat := by omega
      simp [List.take_of_length_le hlen]
    · have h0' : ((o : Int) == 0) = false := beq_eq_false_iff_ne.mpr ho0
      have hbody : rangeReaderFunc rl S http o l = .ok (body.drop o.toNat) := by
        simp [rangeReaderFunc, hrr, hrs, hurl, hadj, hhttp, h0',
          getRangedHttpReader]
      rw [hbody]
      have hlen : (body.drop o.toNat).length ≤ l.toNat := by
        rw [List.length_drop]
        omega
      simp [List.take_of_length_le hlen]
  · have hadj : adjustLength S o l = l := by
      simp only [adjustLength, ite_eq_right_iff, and_imp]
      intro _ h'
      exact absurd h' hc
    rw [hadj] at hhttp
    have hm1 : ((l : Int) == -1) = false := beq_eq_false_iff_ne.mpr (by omega)
    have hneg : ¬(l < 0) := by omega
    simp [rangeReaderFunc, hrr, hrs, hurl, hadj, hhttp, hm1,
      getRangedHttpReader, hneg]

/-- Witness for C3: with a 5-byte body served as a full `200`, the range
`[1, 1+2)` synthesizes to exactly `[1, 2]`. -/
theorem url_branch_200_synthesizes_range_witness :
    rangeReaderFunc linkUrlOnly 5 http200 1 2 =
      .ok (([0, 1, 2, 3, 4].drop (1 : Int).toNat).take (2 : Int).toNat) :=
  url_branch_200_synthesizes_range linkUrlOnly 5 1 2 http200 [0, 1, 2, 3, 4]
    rfl rfl (by decide) rfl (by decide) (by decide) (by decide)

/-- Counterexample to claim C4 as stated: a `500` response to a finite,
non-whole-stream range request is not turned into an error — the adapter
returns the raw response body. -/
theorem url_branch_other_status_cex :
    (500 ≠ 206 ∧ 500 ≠ 200) ∧
    httpStatus500 1 (adjustLength 3 1 1) =
      .ok { status := 500, body := [7, 8, 9] } ∧
    rangeReaderFunc linkUrlOnly 3 httpStatus500 1 1 = .ok [7, 8, 9] := by
  refine ⟨⟨by decide, by decide⟩, rfl, rfl⟩

/-- Claim C4 as amended: in the URL branch, when the request succeeds with
a status that is neither 206 nor 200 and the request was not a whole-stream
read, the adapter returns the raw response body without error (rather than
an error). -/
theorem url_branch_other_status_returns_body (rl : RemoteLink) (S o l : Int)
    (http : Int → Int → Except String HttpResponse) (resp : HttpResponse)
    (hrr : rl.rangeReader = none) (hrs : rl.readSeek = none)
    (hurl : 0 < rl.url.length)
    (hhttp : http o (adjustLength S o l) = .ok resp)
    (h206 : resp.status ≠ 206) (h200 : resp.status ≠ 200)
    (hws : ¬(o = 0 ∧ adjustLength S o l = -1)) :
    rangeReaderFunc rl S http o l = .ok resp.body := by
  have hcond : ((o == 0) && (adjustLength S o l == -1)) = false := by
    rcases h0 : ((o : Int) == 0) with _ | _
    · simp
    · have ho0 : o = 0 := by
        have := h0
        rwa [beq_iff_eq] at this
      have hne : adjustLength S o l ≠ -1 := fun h => hws ⟨ho0, h⟩
      simp [beq_eq_false_iff_ne.mpr hne]
  have h206' : (resp.status == 206) = false := beq_eq_false_iff_ne.mpr h206
  have h200' : (resp.status == 200) = false := beq_eq_false_iff_ne.mpr h200
  simp [rangeReaderFunc, hrr, hrs, hurl, hhttp, hcond, h206', h200']

/-- Witness for the amended C4: the concrete 500-status scenario of the
counterexample, through the amended theorem. -/
theorem url_branch_other_status_returns_body_witness :
    rangeReaderFunc linkUrlOnly 3 httpStatus500 1 1 =
      .ok ({ status := 500, body := [7, 8, 9]} : HttpResponse).body :=
  url_branch_other_status_returns_body linkUrlOnly 3 1 1 httpStatus500
    { status := 500, body := [7, 8, 9] } rfl rfl (by decide) rfl
    (by decide) (by decide) (by decide)

end CryptDriver
